import Mathlib

/-!
Verification development for the reverse smart proxy (load balancer, response
cache, dispatcher) of this repository.  Definitions are shallow embeddings of
the TypeScript sources:

* `src/proxy/loadBalancer.ts` — `LoadBalancer`, round-robin selection;
* `src/proxy/cache.ts` — `Cache` with TTL, key generation, invalidation;
* `src/proxy/proxyServer.ts` — `updateMetrics`, `forwardRequest` options,
  `handleRequest` dispatch pipeline.

JS strings are modelled as `List Char` (wrapped in `String` at the API
boundary).  Timestamps (`Date.now()`) are naturals counting milliseconds and
are passed explicitly where the source reads the clock.  The JS `Map` backing
the cache is modelled as an insertion-ordered association list with the same
get/set/delete semantics.
-/

namespace Proxy

/-- One query parameter: name and value, as character lists (JS strings). -/
abbrev QParam := List Char × List Char

/-- Model of JS `String.prototype.split(sep)` for a one-character separator:
splits into the (always non-empty) list of segments between occurrences of
`c`; the separator itself appears in no segment. -/
def splitOnChar (c : Char) : List Char → List (List Char)
  | [] => [[]]
  | x :: xs =>
    match splitOnChar c xs with
    | [] => [[]]
    | s :: ss => if x = c then [] :: s :: ss else (x :: s) :: ss

/-- Split a query segment at its first `=`: `"k=v"` gives `(k, v)`, a segment
without `=` gives `(segment, "")`.  This is how `URLSearchParams` reads one
raw `&`-separated segment, before decoding either side. -/
def splitFirstEq : List Char → QParam
  | [] => ([], [])
  | x :: xs =>
    if x = '=' then ([], xs)
    else
      let p := splitFirstEq xs
      (x :: p.1, p.2)

/-- Value of a hexadecimal digit, `none` for any other character. -/
def hexDigit? (c : Char) : Option Nat :=
  if '0' ≤ c ∧ c ≤ '9' then some (c.toNat - '0'.toNat)
  else if 'a' ≤ c ∧ c ≤ 'f' then some (c.toNat - 'a'.toNat + 10)
  else if 'A' ≤ c ∧ c ≤ 'F' then some (c.toNat - 'A'.toNat + 10)
  else none

/-- The forgiving percent-decoder `URLSearchParams` applies to each name and
value: `%XY` with two hex digits becomes the character with that code, a `%`
not followed by two hex digits is kept literally.  Decoded bytes are mapped
straight to code points, which is exact for the ASCII range; multi-byte
UTF-8 percent-sequences are out of scope of this development. -/
def percentDecode : List Char → List Char
  | [] => []
  | '%' :: x :: y :: rest =>
    match hexDigit? x, hexDigit? y with
    | some hx, some hy => Char.ofNat (16 * hx + hy) :: percentDecode rest
    | _, _ => '%' :: percentDecode (x :: y :: rest)
  | c :: rest => c :: percentDecode rest

/-- `+` means space in the form-urlencoded query encoding. -/
def plusToSpace (l : List Char) : List Char := l.map (fun c => if c = '+' then ' ' else c)

/-- Full decoding `URLSearchParams` applies to one raw name or value:
`+` to space first, then percent-decoding. -/
def decodeComponent (l : List Char) : List Char := percentDecode (plusToSpace l)

/-- Model of `new URLSearchParams(queryPart)` viewed through `.entries()`:
`&`-separated segments, empty segments skipped, each remaining raw segment
split at its first `=` and both sides decoded.  Entry order is the textual
order, as in JS. -/
def parseQuery (q : List Char) : List QParam :=
  ((splitOnChar '&' q).filter (fun s => !s.isEmpty)).map
    (fun seg =>
      let p := splitFirstEq seg
      (decodeComponent p.1, decodeComponent p.2))

/-- `params.get('format') || 'json'` from `Cache.generateKey`: the first
`format` entry, with both a missing entry and an empty value (JS falsy `''`)
replaced by `"json"`. -/
def getFormat (ps : List QParam) : List Char :=
  match ps.find? (fun p => p.1 == "format".data) with
  | some p => if p.2.isEmpty then "json".data else p.2
  | none => "json".data

/-- `params.delete('format')`: removes every `format` entry. -/
def removeFormat (ps : List QParam) : List QParam :=
  ps.filter (fun p => !(p.1 == "format".data))

/-- Lexicographic (code-point) comparison of JS strings; models
`a.localeCompare(b) <= 0` for the ASCII parameter names this system uses. -/
def charListLe : List Char → List Char → Bool
  | [], _ => true
  | _ :: _, [] => false
  | a :: as, b :: bs => if a = b then charListLe as bs else decide (a < b)

/-- Comparator used by `generateKey`'s sort: compare parameters by name. -/
def paramLE (a b : QParam) : Prop := charListLe a.1 b.1 = true

instance : DecidableRel paramLE := fun a b => by
  unfold paramLE; infer_instance

/-- `sortedParams` of `Cache.generateKey`: JS `Array.prototype.sort` is
stable and sorts ascending by the comparator; a stable insertion sort with
the weak by-name order computes exactly that list. -/
def sortPairs (ps : List QParam) : List QParam := List.insertionSort paramLE ps

/-- `sortedParams.map(([k, v]) => k + '=' + v).join('&')`. -/
def joinParams : List QParam → List Char
  | [] => []
  | [p] => p.1 ++ '=' :: p.2
  | p :: ps => p.1 ++ '=' :: p.2 ++ '&' :: joinParams ps

/-- The canonical query string built by `Cache.generateKey`: the format
first, then the remaining parameters sorted by name (the JS template appends
`'&' + otherParams` only when the joined string is non-empty, which happens
exactly when the remaining parameter list is non-empty). -/
def canonicalQuery (ps : List QParam) : List Char :=
  let rest := sortPairs (removeFormat ps)
  "format=".data ++ getFormat ps ++ (if rest.isEmpty then [] else '&' :: joinParams rest)

/-- `url.split('?')[0]` in `Cache.generateKey`. -/
def pathPartOf (u : List Char) : List Char := (splitOnChar '?' u).headD []

/-- `url.split('?')[1] ?? ''` in `Cache.generateKey` (later split segments
are discarded by the destructuring, as in JS). -/
def queryPartOf (u : List Char) : List Char := ((splitOnChar '?' u).drop 1).headD []

/-- `pathPart.replace(//$/, '')`: strips one trailing slash. -/
def dropTrailingSlash (p : List Char) : List Char :=
  if p.getLast? = some '/' then p.dropLast else p

/-- JS `toUpperCase`, accurate for the ASCII method names used here. -/
def upperChars (s : List Char) : List Char := s.map Char.toUpper

/-- `Cache.generateKey(method, url)`:
`METHOD:normalizedPath?format=F&sortedOtherParams`. -/
def generateKeyChars (method url : List Char) : List Char :=
  upperChars method ++ ':' ::
    (dropTrailingSlash (pathPartOf url) ++ '?' :: canonicalQuery (parseQuery (queryPartOf url)))

/-- String-level wrapper of `Cache.generateKey`. -/
def generateKey (method url : String) : String := ⟨generateKeyChars method.data url.data⟩

/-- The URL obtained by appending an explicit `format=json` query parameter
to a raw URL, as a client would: with `&` when the URL already has a query
marker and with `?` otherwise. -/
def appendFormatJson (u : String) : String :=
  if '?' ∈ u.data then u ++ "&format=json" else u ++ "?format=json"

/-- JS `String.prototype.startsWith` on character lists. -/
def startsWithChars : List Char → List Char → Bool
  | [], _ => true
  | _ :: _, [] => false
  | a :: as, b :: bs => a = b && startsWithChars as bs

/-- JS `String.prototype.includes` on character lists: `pat` occurs as a
contiguous substring. -/
def containsSub (pat : List Char) : List Char → Bool
  | [] => pat.isEmpty
  | x :: xs => startsWithChars pat (x :: xs) || containsSub pat xs

/-- `CacheEntry` from `src/proxy/types.ts` (header values flattened to single
strings; no claim inspects them). -/
structure CacheEntry where
  body : String
  headers : List (String × String)
  statusCode : Nat
  cachedAt : Nat
  expiresAt : Nat
  deriving DecidableEq, Repr

/-- The JS `Map` backing the cache: insertion-ordered association list. -/
abbrev CacheStore := List (String × CacheEntry)

/-- `Map.prototype.get`. -/
def storeGet (store : CacheStore) (k : String) : Option CacheEntry :=
  match store.find? (fun p => p.1 == k) with
  | some p => some p.2
  | none => none

/-- `Map.prototype.set`: replaces in place or appends. -/
def storeSet : CacheStore → String → CacheEntry → CacheStore
  | [], k, v => [(k, v)]
  | p :: rest, k, v => if p.1 = k then (k, v) :: rest else p :: storeSet rest k v

/-- `Map.prototype.delete`. -/
def storeDelete (store : CacheStore) (k : String) : CacheStore :=
  store.filter (fun p => !(p.1 == k))

/-- The proxy `Cache` (`src/proxy/cache.ts`): a store plus the configured TTL
in seconds. -/
structure Cache where
  store : CacheStore
  ttlSeconds : Nat
  deriving DecidableEq, Repr

/-- `Cache.shouldCache`: only GET requests are cacheable. -/
def Cache.shouldCache (method : String) : Bool := upperChars method.data == "GET".data

/-- `Cache.get(method, url)` at clock value `now`: returns the entry when
present and unexpired, and also the cache after the call (expired entries are
deleted as a side effect). -/
def Cache.get (c : Cache) (now : Nat) (method url : String) : Option CacheEntry × Cache :=
  if !(Cache.shouldCache method) then (none, c)
  else
    let key := generateKey method url
    match storeGet c.store key with
    | none => (none, c)
    | some e =>
      if now > e.expiresAt then (none, { c with store := storeDelete c.store key })
      else (some e, c)

/-- `Cache.set(method, url, body, headers, statusCode)` at clock value
`now`. -/
def Cache.set (c : Cache) (now : Nat) (method url : String) (body : String)
    (headers : List (String × String)) (statusCode : Nat) : Cache :=
  if !(Cache.shouldCache method) then c
  else
    { c with
      store := storeSet c.store (generateKey method url)
        { body := body, headers := headers, statusCode := statusCode,
          cachedAt := now, expiresAt := now + c.ttlSeconds * 1000 } }

/-- `Cache.invalidate(pattern)`: deletes every entry whose key contains the
pattern as a substring (`key.includes(pattern)`). -/
def Cache.invalidate (c : Cache) (pattern : String) : Cache :=
  { c with store := c.store.filter (fun p => !(containsSub pattern.data p.1.data)) }

/-- `Cache.clear()`. -/
def Cache.clear (c : Cache) : Cache := { c with store := [] }

/-- `LoadBalancerConfig` from `src/proxy/types.ts` (the `algorithm` field is
the constant `'round-robin'` and is omitted). -/
structure LoadBalancerConfig where
  servers : List String
  deriving DecidableEq, Repr

/-- `LoadBalancer` state (`src/proxy/loadBalancer.ts`). -/
structure LoadBalancer where
  servers : List String
  currentIndex : Nat
  deriving DecidableEq, Repr

/-- The `LoadBalancer` constructor: throws when the configured pool is empty,
otherwise starts at index 0. -/
def mkLoadBalancer (config : LoadBalancerConfig) : Except String LoadBalancer :=
  if config.servers.length = 0 then Except.error "At least one server must be configured"
  else Except.ok { servers := config.servers, currentIndex := 0 }

/-- `LoadBalancer.getNextServer`: returns the server at the cursor, then
advances the cursor modulo the pool size.  (JS indexing out of range would
give `undefined`; the in-range invariant proved below makes the `getD`
default unreachable.) -/
def LoadBalancer.getNextServer (lb : LoadBalancer) : String × LoadBalancer :=
  (lb.servers.getD lb.currentIndex "",
   { lb with currentIndex := (lb.currentIndex + 1) % lb.servers.length })

/-- The first components of `m` consecutive `getNextServer` calls. -/
def selections (lb : LoadBalancer) : Nat → List String
  | 0 => []
  | n + 1 =>
    let step := lb.getNextServer
    step.1 :: selections step.2 n

/-- The balancer state after `m` consecutive `getNextServer` calls. -/
def lbAfter (lb : LoadBalancer) : Nat → LoadBalancer
  | 0 => lb
  | n + 1 => lbAfter (lb.getNextServer).2 n

/-- `ProxyMetrics` from `src/proxy/types.ts`; `requestsByServer` is a total
count function (JS object with missing keys read as absent, initialised to 0
before the first increment), `responseTimes` is the rolling sample list.  The
floating-point `averageResponseTime` is not modelled; no claim depends on
it. -/
structure ProxyMetrics where
  totalRequests : Nat
  cacheHits : Nat
  cacheMisses : Nat
  requestsByServer : String → Nat
  responseTimes : List Nat

/-- The initial metrics object of `proxyServer.ts`. -/
def emptyMetrics : ProxyMetrics :=
  { totalRequests := 0, cacheHits := 0, cacheMisses := 0,
    requestsByServer := fun _ => 0, responseTimes := [] }

/-- `updateMetrics(dwServer, responseTime, cacheHit)` from
`src/proxy/proxyServer.ts`: bumps the total, exactly one of hits/misses, the
per-server count, and pushes a response-time sample (keeping the last 100,
`shift()` dropping the oldest). -/
def updateMetrics (m : ProxyMetrics) (dwServer : String) (responseTime : Nat)
    (cacheHit : Bool) : ProxyMetrics :=
  { totalRequests := m.totalRequests + 1,
    cacheHits := if cacheHit then m.cacheHits + 1 else m.cacheHits,
    cacheMisses := if cacheHit then m.cacheMisses else m.cacheMisses + 1,
    requestsByServer := fun s =>
      if s = dwServer then m.requestsByServer s + 1 else m.requestsByServer s,
    responseTimes :=
      let ts := m.responseTimes ++ [responseTime]
      if ts.length > 100 then ts.tail else ts }

/-- Outcome of the `axios` call inside `forwardRequest`: either a transport
error (connection refused, timeout, DNS failure — the only case in which
axios throws, since `validateStatus` accepts every status) or a backend
response. -/
inductive ForwardOutcome where
  | transportError
  | response (status : Nat) (headers : List (String × String)) (body : String)
  deriving DecidableEq, Repr

/-- The axios request options object built by `forwardRequest`
(`src/proxy/proxyServer.ts` lines 129–149).  `timeout` is part of the axios
config surface (axios default `0` means wait indefinitely); the source never
sets it, hence the field is `none` by construction. -/
structure AxiosRequestOptions where
  method : String
  url : String
  headers : List (String × String)
  validateStatusAlwaysTrue : Bool
  responseType : String
  data : Option String
  timeout : Option Nat
  deriving DecidableEq, Repr

/-- The skip list of `forwardRequest`'s header sanitization. -/
def skipHeaders : List String := ["host", "connection", "content-length", "transfer-encoding"]

/-- Headers forwarded to the backend: the client headers minus the skip list,
with a default `content-type` added for POST/PUT bodies. -/
def forwardedHeaders (method : String) (reqHeaders : List (String × String)) :
    List (String × String) :=
  let hs := reqHeaders.filter (fun p => !(skipHeaders.contains p.1.toLower))
  if (method == "POST" || method == "PUT") && !(hs.any (fun p => p.1.toLower == "content-type"))
  then hs ++ [("content-type", "application/json")]
  else hs

/-- The request options `forwardRequest` passes to `axios`: the body is
attached only for non-GET/HEAD methods, and no timeout is ever configured. -/
def buildRequestOptions (method fullUrl : String) (reqHeaders : List (String × String))
    (body : String) : AxiosRequestOptions :=
  { method := method,
    url := fullUrl,
    headers := forwardedHeaders method reqHeaders,
    validateStatusAlwaysTrue := true,
    responseType := "text",
    data := if method != "GET" && method != "HEAD" then some body else none,
    timeout := none }

/-- Shared state of the proxy process: cache, balancer, metrics. -/
structure ProxyState where
  cache : Cache
  lb : LoadBalancer
  metrics : ProxyMetrics

/-- What `handleRequest` writes back to the client (status and body; headers
are not inspected by any claim). -/
structure ClientResponse where
  status : Nat
  body : String
  deriving DecidableEq, Repr

/-- The static-asset extension list of `handleRequest`. -/
def staticExtensions : List String :=
  [".ico", ".png", ".jpg", ".jpeg", ".gif", ".svg", ".css", ".js",
   ".woff", ".woff2", ".ttf", ".eot"]

/-- JS `String.prototype.endsWith` on character lists. -/
def endsWithChars (pat l : List Char) : Bool := startsWithChars pat.reverse l.reverse

/-- `path.toLowerCase().endsWith(ext)` over the extension list; `path` is
`url.parse(req.url).path`, which for origin-form requests equals `req.url`. -/
def isStaticFilePath (p : String) : Bool :=
  staticExtensions.any (fun ext => endsWithChars ext.data (p.data.map Char.toLower))

/-- `method === 'POST' || method === 'PUT' || method === 'DELETE'`. -/
def isWriteMethod (method : String) : Bool :=
  method == "POST" || method == "PUT" || method == "DELETE"

/-- `handleRequest` from `src/proxy/proxyServer.ts` (lines 201–342), as a
state transformer.  Inputs beyond the proxy state: the request method and raw
URL, the clock value `now` used by the cache calls, the measured
`responseTime`, and the outcome the backend call would produce.  Pipeline,
in source order: OPTIONS preflight; static-file bypass (the filesystem
read is out of scope, modelled as a 404 with unchanged state); cache probe
for GET (serving a hit updates metrics under the pseudo-server `"cache"`);
invalidation of the fixed `'/employees'` pattern for write methods; then the
forward outcome — the catch branch (transport error) answers 500 without
touching metrics, a backend status ≥ 400 is passed through without caching
or metrics, otherwise a GET with status exactly 200 is stored and metrics
are updated under the selected server.  `getNextServer` runs before the
outcome is known, so the cursor advances on every forwarded request. -/
def handleRequest (st : ProxyState) (method url : String) (now responseTime : Nat)
    (outcome : ForwardOutcome) : ProxyState × ClientResponse :=
  if method == "OPTIONS" then (st, { status := 200, body := "" })
  else if isStaticFilePath url && method == "GET" then (st, { status := 404, body := "" })
  else
    let probe := if method == "GET" then st.cache.get now method url else (none, st.cache)
    match probe.1 with
    | some entry =>
      ({ st with cache := probe.2,
                 metrics := updateMetrics st.metrics "cache" responseTime true },
       { status := entry.statusCode, body := entry.body })
    | none =>
      let cache₂ := if isWriteMethod method then probe.2.invalidate "/employees" else probe.2
      let sel := st.lb.getNextServer
      match outcome with
      | ForwardOutcome.transportError =>
        ({ cache := cache₂, lb := sel.2, metrics := st.metrics },
         { status := 500, body := "Internal server error" })
      | ForwardOutcome.response status headers body =>
        if status ≥ 400 then
          ({ cache := cache₂, lb := sel.2, metrics := st.metrics },
           { status := status, body := body })
        else
          let cache₃ :=
            if method == "GET" && status == 200
            then cache₂.set now method url body headers status
            else cache₂
          ({ cache := cache₃, lb := sel.2,
             metrics := updateMetrics st.metrics sel.1 responseTime false },
           { status := status, body := body })

/-- The tail of `handleRequest` once a request reaches the forwarding stage
(after the cache probe missed), as a function of the pre-forward cache
`cache₁`; used to state reduction lemmas about the pipeline. -/
def forwardedResult (st : ProxyState) (method url : String) (now rt : Nat)
    (outcome : ForwardOutcome) (cache₁ : Cache) : ProxyState × ClientResponse :=
  let cache₂ := if isWriteMethod method then cache₁.invalidate "/employees" else cache₁
  let sel := st.lb.getNextServer
  match outcome with
  | ForwardOutcome.transportError =>
    ({ cache := cache₂, lb := sel.2, metrics := st.metrics },
     { status := 500, body := "Internal server error" })
  | ForwardOutcome.response status headers body =>
    if status ≥ 400 then
      ({ cache := cache₂, lb := sel.2, metrics := st.metrics },
       { status := status, body := body })
    else
      ({ cache := (if method == "GET" && status == 200
                   then cache₂.set now method url body headers status else cache₂),
         lb := sel.2,
         metrics := updateMetrics st.metrics sel.1 rt false },
       { status := status, body := body })

/-- The cache `handleRequest` works on after the probe stage. -/
def probedCache (st : ProxyState) (method url : String) (now : Nat) : Cache :=
  if method == "GET" then (st.cache.get now method url).2 else st.cache

/-- One inbound request together with the environment data `handleRequest`
consumes for it (clock, measured time, backend outcome). -/
structure ReqEvent where
  method : String
  url : String
  now : Nat
  responseTime : Nat
  outcome : ForwardOutcome
  deriving Repr

/-- Run a sequence of requests through the dispatcher. -/
def runRequests (st : ProxyState) : List ReqEvent → ProxyState
  | [] => st
  | e :: es => runRequests (handleRequest st e.method e.url e.now e.responseTime e.outcome).1 es

/-- Whether, in state `st`, the event would be answered from the cache. -/
def isCacheHit (st : ProxyState) (e : ReqEvent) : Bool :=
  e.method == "GET" && !(isStaticFilePath e.url) &&
    (st.cache.get e.now e.method e.url).1.isSome

/-- Whether, in state `st`, the event would be forwarded to a backend (not a
preflight, not a static bypass, not a cache hit). -/
def isForwarded (st : ProxyState) (e : ReqEvent) : Bool :=
  !(e.method == "OPTIONS") && !(isStaticFilePath e.url && e.method == "GET") &&
    !(isCacheHit st e)

/-- Whether the event would be forwarded and come back with a backend status
below 400 (the only forwarded case in which `updateMetrics` runs). -/
def isForwardedOk (st : ProxyState) (e : ReqEvent) : Bool :=
  isForwarded st e &&
    (match e.outcome with
     | ForwardOutcome.transportError => false
     | ForwardOutcome.response status _ _ => decide (status < 400))

/-- Number of forwarded (non-cache-hit) requests along a run. -/
def countForwarded (st : ProxyState) : List ReqEvent → Nat
  | [] => 0
  | e :: es =>
    (if isForwarded st e then 1 else 0) +
      countForwarded (handleRequest st e.method e.url e.now e.responseTime e.outcome).1 es

/-- Number of forwarded requests answered with backend status < 400 along a
run. -/
def countForwardedOk (st : ProxyState) : List ReqEvent → Nat
  | [] => 0
  | e :: es =>
    (if isForwardedOk st e then 1 else 0) +
      countForwardedOk (handleRequest st e.method e.url e.now e.responseTime e.outcome).1 es

/-- Sum of the per-backend request counts over a list of backend
addresses. -/
def sumCounts (m : ProxyMetrics) (servers : List String) : Nat :=
  (servers.map m.requestsByServer).sum

/-! ## Load-balancer lemmas -/

theorem selections_cons (lb : LoadBalancer) (n : Nat) :
    selections lb (n + 1) = (lb.getNextServer).1 :: selections (lb.getNextServer).2 n := rfl

theorem lbAfter_succ (lb : LoadBalancer) (n : Nat) :
    lbAfter lb (n + 1) = lbAfter (lb.getNextServer).2 n := rfl

/-- Closed form of a run of selections: the `i`-th pick reads the pool at
index `(c + i) mod N`. -/
theorem selections_eq_map (servers : List String) (c m : Nat) (hc : c < servers.length) :
    selections ⟨servers, c⟩ m =
      (List.range m).map (fun i => servers.getD ((c + i) % servers.length) "") := by
  induction m generalizing c with
  | zero => rfl
  | succ n ih =>
    have hlen : 0 < servers.length := Nat.lt_of_le_of_lt (Nat.zero_le c) hc
    have h2 : ((⟨servers, c⟩ : LoadBalancer).getNextServer).2 =
        ⟨servers, (c + 1) % servers.length⟩ := rfl
    rw [selections_cons, h2, ih ((c + 1) % servers.length) (Nat.mod_lt _ hlen),
      List.range_succ_eq_map, List.map_cons, List.map_map]
    congr 1
    · show servers.getD c "" = servers.getD ((c + 0) % servers.length) ""
      rw [Nat.add_zero, Nat.mod_eq_of_lt hc]
    · apply List.map_congr_left
      intro i _
      show servers.getD (((c + 1) % servers.length + i) % servers.length) "" =
        servers.getD ((c + Nat.succ i) % servers.length) ""
      congr 1
      rw [Nat.mod_add_mod]
      congr 1
      omega

/-- Among the first `k * N` naturals, exactly `k` have a given residue
`j < N` modulo `N`. -/
theorem countP_mod_range (N j : Nat) (hj : j < N) (k : Nat) :
    (List.range (k * N)).countP (fun i => i % N == j) = k := by
  induction k with
  | zero => simp
  | succ n ih =>
    have hsplit : (n + 1) * N = n * N + N := by ring
    rw [hsplit, List.range_add, List.countP_append, ih, List.countP_map]
    have hblock : ((List.range N).countP ((fun i => i % N == j) ∘ (n * N + ·))) =
        (List.range N).countP (fun i => i == j) := by
      rw [List.countP_eq_length_filter, List.countP_eq_length_filter]
      congr 1
      apply List.filter_congr
      intro i hi
      have hiN : i < N := List.mem_range.mp hi
      show (((n * N + i) % N) == j) = (i == j)
      rw [Nat.mul_comm n N, Nat.mul_add_mod, Nat.mod_eq_of_lt hiN]
    rw [hblock]
    have : (List.range N).countP (fun i => i == j) = List.count j (List.range N) := rfl
    rw [this, List.count_eq_one_of_mem (List.nodup_range N) (List.mem_range.mpr hj)]

/-! ## Dispatcher reduction lemmas -/

/-- `handleRequest` on a cache hit: serve the stored entry and record a
cache-hit metric under the pseudo-server `"cache"`. -/
theorem handleRequest_hit (st : ProxyState) (method url : String) (now rt : Nat)
    (outcome : ForwardOutcome) (entry : CacheEntry) (c₁ : Cache)
    (hopt : (method == "OPTIONS") = false)
    (hstat : (isStaticFilePath url && method == "GET") = false)
    (hg : (method == "GET") = true)
    (hget : st.cache.get now method url = (some entry, c₁)) :
    handleRequest st method url now rt outcome =
      ({ st with cache := c₁,
                 metrics := updateMetrics st.metrics "cache" rt true },
       { status := entry.statusCode, body := entry.body }) := by
  unfold handleRequest
  rw [if_neg (by simp [hopt]), if_neg (by simp [hstat])]
  simp only [hg, if_true, hget]

/-- `handleRequest` on a request that reaches the forwarding stage. -/
theorem handleRequest_forwarded (st : ProxyState) (method url : String) (now rt : Nat)
    (outcome : ForwardOutcome)
    (hopt : (method == "OPTIONS") = false)
    (hstat : (isStaticFilePath url && method == "GET") = false)
    (hmiss : (method == "GET") = true → (st.cache.get now method url).1 = none) :
    handleRequest st method url now rt outcome =
      forwardedResult st method url now rt outcome (probedCache st method url now) := by
  unfold handleRequest forwardedResult probedCache
  rw [if_neg (by simp [hopt]), if_neg (by simp [hstat])]
  by_cases hg : (method == "GET") = true
  · simp only [hg, if_true, hmiss hg]
  · have hg' : (method == "GET") = false := by
      cases h : (method == "GET") with
      | false => rfl
      | true => exact absurd h hg
    simp only [hg', Bool.false_eq_true, if_false]

/-! ## C4 and C5 -/

/-- C4: the claim says every backend call carries a bounded timeout; the
options object `forwardRequest` hands to axios never sets one (axios then
defaults to no timeout at all), so an unresponsive backend is waited on
indefinitely.  This theorem documents the divergence: the built options have
no timeout for any request. -/
theorem c4_no_timeout_configured (method fullUrl : String)
    (reqHeaders : List (String × String)) (body : String) :
    (buildRequestOptions method fullUrl reqHeaders body).timeout = none := rfl

/-- C5: from a freshly constructed balancer over a pool of `N` distinct
backends, `k * N` consecutive selections pick each backend exactly `k`
times, in pool order (`i`-th selection is `servers[i mod N]`, so the first
is `servers[0]`), and each single selection returns the backend at the
cursor and advances the cursor modulo the pool size. -/
theorem c5_round_robin_fairness (servers : List String) (k : Nat)
    (hlen : 0 < servers.length) (hnd : servers.Nodup) :
    (∀ lb : LoadBalancer, lb.getNextServer =
      (lb.servers.getD lb.currentIndex "",
       { lb with currentIndex := (lb.currentIndex + 1) % lb.servers.length })) ∧
    (∀ i, i < k * servers.length →
      (selections ⟨servers, 0⟩ (k * servers.length)).getD i "" =
        servers.getD (i % servers.length) "") ∧
    (0 < k → (selections ⟨servers, 0⟩ (k * servers.length)).getD 0 "" = servers.getD 0 "") ∧
    (∀ j, (hj : j < servers.length) →
      (selections ⟨servers, 0⟩ (k * servers.length)).count (servers.get ⟨j, hj⟩) = k) := by
  have hmap := selections_eq_map servers 0 (k * servers.length) hlen
  have hidx : ∀ i, i < k * servers.length →
      (selections ⟨servers, 0⟩ (k * servers.length)).getD i "" =
        servers.getD (i % servers.length) "" := by
    intro i hi
    rw [hmap]
    have hlenmap : i < ((List.range (k * servers.length)).map
        (fun i => servers.getD ((0 + i) % servers.length) "")).length := by
      simpa using hi
    rw [List.getD_eq_getElem _ _ hlenmap, List.getElem_map, List.getElem_range]
    congr 2
    omega
  refine ⟨fun lb => rfl, hidx, ?_, ?_⟩
  · intro hk
    have h0 : (0 : Nat) < k * servers.length := Nat.mul_pos hk hlen
    have := hidx 0 h0
    rwa [Nat.zero_mod] at this
  · intro j hj
    rw [hmap]
    have hcount : ∀ i : Nat,
        ((servers.getD ((0 + i) % servers.length) "") == servers.get ⟨j, hj⟩) =
          (i % servers.length == j) := by
      intro i
      have hmod : (0 + i) % servers.length = i % servers.length := by
        rw [Nat.zero_add]
      have hlt : i % servers.length < servers.length := Nat.mod_lt _ hlen
      rw [hmod, List.getD_eq_getElem _ _ hlt]
      by_cases h : i % servers.length = j
      · subst h
        simp
      · have hne : servers[i % servers.length] ≠ servers.get ⟨j, hj⟩ := by
          intro heq
          exact h (Fin.mk.injEq _ _ _ _ ▸ (hnd.get_inj_iff.mp heq))
        simp only [List.get_eq_getElem] at hne
        simp [hne, h]
    rw [List.count, List.countP_map]
    have : ((fun a => a == servers.get ⟨j, hj⟩) ∘
        fun i => servers.getD ((0 + i) % servers.length) "") =
        fun i => i % servers.length == j := by
      funext i
      exact hcount i
    rw [this, countP_mod_range _ _ hj]

/-- Witness for C5 at `servers = ["a", "b"]`, `k = 3`: 6 selections, each
backend picked 3 times, `i`-th pick is `servers[i mod 2]`, first pick is
`servers[0]`. -/
theorem c5_round_robin_fairness_witness :
    (0 : Nat) < (["a", "b"] : List String).length ∧
    (selections ⟨["a", "b"], 0⟩ 6).count "a" = 3 ∧
    (selections ⟨["a", "b"], 0⟩ 6).getD 5 "" = "b" ∧
    (selections ⟨["a", "b"], 0⟩ 6).getD 0 "" = "a" := by
  have h := c5_round_robin_fairness ["a", "b"] 3 (by decide) (by decide)
  exact ⟨by decide, h.2.2.2 0 (by decide), h.2.1 5 (by decide), h.2.2.1 (by decide)⟩

/-! ## C6 -/

/-- C6: the rotation cursor stays in `[0, pool size)` in every reachable
state; every selection advances it to `(cursor + 1) mod pool size`, and on a
forwarded request the dispatcher advances it identically for every forwarding
outcome (success, backend error status, or transport error); construction
with an empty pool fails, and a successful construction starts at cursor 0
with the configured non-empty pool. -/
theorem c6_cursor_invariant :
    (mkLoadBalancer ⟨[]⟩ = Except.error "At least one server must be configured") ∧
    (∀ cfg lb, mkLoadBalancer cfg = Except.ok lb →
      lb.servers = cfg.servers ∧ lb.currentIndex = 0 ∧ cfg.servers ≠ []) ∧
    (∀ lb : LoadBalancer, lb.currentIndex < lb.servers.length →
      ∀ m, (lbAfter lb m).currentIndex < lb.servers.length ∧
           (lbAfter lb m).servers = lb.servers) ∧
    (∀ lb : LoadBalancer,
      (lb.getNextServer).2.currentIndex = (lb.currentIndex + 1) % lb.servers.length ∧
      (lb.getNextServer).2.servers = lb.servers) ∧
    (∀ st method url now rt,
      (method == "OPTIONS") = false →
      (isStaticFilePath url && method == "GET") = false →
      ((method == "GET") = true → (st.cache.get now method url).1 = none) →
      ∀ outcome, (handleRequest st method url now rt outcome).1.lb = (st.lb.getNextServer).2) := by
  refine ⟨rfl, ?_, ?_, fun lb => ⟨rfl, rfl⟩, ?_⟩
  · intro cfg lb h
    unfold mkLoadBalancer at h
    split at h
    · cases h
    · rename_i hne
      cases h
      exact ⟨rfl, rfl, fun h0 => hne (by simp [h0])⟩
  · intro lb hc m
    induction m generalizing lb with
    | zero => exact ⟨hc, rfl⟩
    | succ n ih =>
      have hlen : 0 < lb.servers.length := Nat.lt_of_le_of_lt (Nat.zero_le _) hc
      have hnext : (lb.getNextServer).2.currentIndex < (lb.getNextServer).2.servers.length := by
        show (lb.currentIndex + 1) % lb.servers.length < lb.servers.length
        exact Nat.mod_lt _ hlen
      have := ih (lb.getNextServer).2 hnext
      rw [lbAfter_succ]
      exact ⟨this.1, this.2⟩
  · intro st method url now rt hopt hstat hmiss outcome
    rw [handleRequest_forwarded st method url now rt outcome hopt hstat hmiss]
    cases outcome with
    | transportError => rfl
    | response status headers body =>
      show (if status ≥ 400 then _ else _ : ProxyState × ClientResponse).1.lb = _
      split <;> rfl

/-- Witness for C6: a successful construction over two servers, the cursor
after 5 selections, and the dispatcher advancing the cursor on a concrete
transport-error POST. -/
theorem c6_cursor_invariant_witness :
    ((mkLoadBalancer ⟨["a", "b"]⟩ = Except.ok ⟨["a", "b"], 0⟩) →
      ((⟨["a", "b"], 0⟩ : LoadBalancer).servers = ["a", "b"])) ∧
    (lbAfter ⟨["a", "b"], 0⟩ 5).currentIndex < (["a", "b"] : List String).length ∧
    (handleRequest ⟨⟨[], 30⟩, ⟨["a", "b"], 0⟩, emptyMetrics⟩ "POST" "/employees" 0 1
        ForwardOutcome.transportError).1.lb =
      ((⟨["a", "b"], 0⟩ : LoadBalancer).getNextServer).2 := by
  refine ⟨?_, ?_, ?_⟩
  · intro h
    exact (c6_cursor_invariant.2.1 ⟨["a", "b"]⟩ ⟨["a", "b"], 0⟩ h).1
  · exact (c6_cursor_invariant.2.2.1 ⟨["a", "b"], 0⟩ (by decide) 5).1
  · exact c6_cursor_invariant.2.2.2.2 ⟨⟨[], 30⟩, ⟨["a", "b"], 0⟩, emptyMetrics⟩
      "POST" "/employees" 0 1 (by decide) (by decide)
      (fun h => absurd h (by decide)) ForwardOutcome.transportError

/-! ## Cache store lemmas -/

theorem storeGet_storeSet_same (s : CacheStore) (k : String) (v : CacheEntry) :
    storeGet (storeSet s k v) k = some v := by
  induction s with
  | nil => simp [storeSet, storeGet, List.find?]
  | cons p rest ih =>
    by_cases h : p.1 = k
    · simp [storeSet, h, storeGet, List.find?]
    · have hb : (p.1 == k) = false := by
        simpa using h
      simp only [storeSet, if_neg h, storeGet, List.find?, hb]
      exact ih

theorem storeGet_storeDelete_same (s : CacheStore) (k : String) :
    storeGet (storeDelete s k) k = none := by
  induction s with
  | nil => rfl
  | cons p rest ih =>
    by_cases h : p.1 = k
    · have hb : (p.1 == k) = true := by simpa using h
      simp only [storeDelete, List.filter, hb, Bool.not_true]
      exact ih
    · have hb : (p.1 == k) = false := by simpa using h
      simp only [storeDelete, List.filter, hb, Bool.not_false, storeGet, List.find?]
      simpa [storeGet, storeDelete] using ih

/-! ## C2 -/

/-- C2 (amended): for every entry the cache stores, the expiration timestamp
is the creation timestamp plus TTL·1000 ms; a lookup strictly after the
expiration returns absent and removes the entry as a side effect; a lookup
at or before the expiration timestamp (the boundary included, which is where
the claim's strict reading fails) returns the entry and leaves the cache
unchanged. -/
theorem c2_ttl_and_expiry (c : Cache) (now t : Nat) (method url body : String)
    (headers : List (String × String)) (status : Nat) :
    (Cache.shouldCache method = true →
      storeGet ((c.set now method url body headers status).store) (generateKey method url) =
        some { body := body, headers := headers, statusCode := status,
               cachedAt := now, expiresAt := now + c.ttlSeconds * 1000 }) ∧
    (∀ e, storeGet c.store (generateKey method url) = some e →
      Cache.shouldCache method = true →
      ((t > e.expiresAt →
        (c.get t method url).1 = none ∧
        storeGet ((c.get t method url).2).store (generateKey method url) = none) ∧
       (t ≤ e.expiresAt → c.get t method url = (some e, c)))) := by
  constructor
  · intro hm
    unfold Cache.set
    rw [if_neg (by simp [hm])]
    exact storeGet_storeSet_same _ _ _
  · intro e hget hm
    constructor
    · intro hexp
      unfold Cache.get
      rw [if_neg (by simp [hm])]
      simp only [hget, if_pos hexp]
      exact ⟨trivial, storeGet_storeDelete_same _ _⟩
    · intro hexp
      unfold Cache.get
      rw [if_neg (by simp [hm])]
      simp only [hget]
      rw [if_neg (by omega)]

/-- Witness for C2 at a concrete cache: an entry stored at time 0 with TTL
30 s expires at 30000; a lookup at 30001 is absent and deletes it. -/
theorem c2_ttl_and_expiry_witness :
    storeGet ((Cache.set ⟨[], 30⟩ 0 "GET" "/employees" "b" [] 200).store)
        (generateKey "GET" "/employees") =
      some { body := "b", headers := [], statusCode := 200, cachedAt := 0, expiresAt := 30000 } ∧
    (Cache.get ⟨[(generateKey "GET" "/employees",
        { body := "b", headers := [], statusCode := 200, cachedAt := 0, expiresAt := 30000 })],
        30⟩ 30001 "GET" "/employees").1 = none := by
  constructor
  · exact (c2_ttl_and_expiry ⟨[], 30⟩ 0 0 "GET" "/employees" "b" [] 200).1 rfl
  · exact (((c2_ttl_and_expiry ⟨[(generateKey "GET" "/employees",
      { body := "b", headers := [], statusCode := 200, cachedAt := 0, expiresAt := 30000 })], 30⟩
      0 30001 "GET" "/employees" "b" [] 200).2
      { body := "b", headers := [], statusCode := 200, cachedAt := 0, expiresAt := 30000 }
      rfl rfl).1 (by decide)).1

/-- C2 counterexample: the claim says a lookup at a time greater than or
equal to the expiration timestamp is absent; at exactly the expiration
timestamp (30000 = 0 + 30·1000) the source still returns the entry, because
it only evicts when `now > expiresAt`. -/
theorem c2_expiry_boundary_counterexample :
    (Cache.get ((Cache.set ⟨[], 30⟩ 0 "GET" "/employees" "b" [] 200)) 30000 "GET" "/employees").1 =
      some { body := "b", headers := [], statusCode := 200, cachedAt := 0, expiresAt := 30000 } ∧
    (30000 : Nat) ≥ 0 + 30 * 1000 := ⟨rfl, by decide⟩

/-! ## C1 -/

/-- C1 (amended): on every write (POST/PUT/DELETE) the dispatcher calls
`invalidate` with the fixed pattern `'/employees'` — not with the request's
own resource path — and does so for every forwarding outcome; consequently
after a write no cache entry whose key contains `'/employees'` survives,
while entries for other resource families are untouched (the resulting cache
is exactly the old cache with the `'/employees'`-matching entries
filtered out). -/
theorem c1_write_invalidation (st : ProxyState) (method url : String)
    (now rt : Nat) (outcome : ForwardOutcome)
    (hw : isWriteMethod method = true) :
    (handleRequest st method url now rt outcome).1.cache = st.cache.invalidate "/employees" ∧
    (∀ k e, (k, e) ∈ (handleRequest st method url now rt outcome).1.cache.store →
      containsSub "/employees".data k.data = false) := by
  have hcases : method = "POST" ∨ method = "PUT" ∨ method = "DELETE" := by
    have h := hw
    simp only [isWriteMethod, Bool.or_eq_true, beq_iff_eq] at h
    tauto
  have hopt : (method == "OPTIONS") = false := by
    rcases hcases with h | h | h <;> simp [h]
  have hstat : (isStaticFilePath url && method == "GET") = false := by
    rcases hcases with h | h | h <;> simp [h]
  have hget : (method == "GET") = false := by
    rcases hcases with h | h | h <;> simp [h]
  have hmiss : (method == "GET") = true → (st.cache.get now method url).1 = none :=
    fun h => absurd h (by simp [hget])
  have hpc : probedCache st method url now = st.cache := by
    unfold probedCache
    rw [if_neg (by simp [hget])]
  have hcache : (handleRequest st method url now rt outcome).1.cache =
      st.cache.invalidate "/employees" := by
    rw [handleRequest_forwarded st method url now rt outcome hopt hstat hmiss, hpc]
    cases outcome with
    | transportError => simp [forwardedResult, hw]
    | response status headers body =>
      by_cases h4 : status ≥ 400
      · simp [forwardedResult, hw, h4]
      · simp [forwardedResult, hw, h4, hget]
  refine ⟨hcache, ?_⟩
  intro k e hmem
  rw [hcache] at hmem
  have := (List.mem_filter.mp hmem).2
  simpa using this

/-- Witness for C1: a concrete POST removes the `/employees` entry. -/
theorem c1_write_invalidation_witness :
    (handleRequest ⟨⟨[(generateKey "GET" "/employees",
        { body := "old", headers := [], statusCode := 200, cachedAt := 0, expiresAt := 30000 })],
        30⟩, ⟨["a"], 0⟩, emptyMetrics⟩ "POST" "/employees" 1 1
        (ForwardOutcome.response 201 [] "created")).1.cache =
      Cache.invalidate ⟨[(generateKey "GET" "/employees",
        { body := "old", headers := [], statusCode := 200, cachedAt := 0, expiresAt := 30000 })],
        30⟩ "/employees" :=
  (c1_write_invalidation _ "POST" "/employees" 1 1 _ (by decide)).1

/-- C1 counterexample: the claim's universally-quantified form fails at path
`/items`: the `/items` cache key does contain `"/items"`, yet after a POST
to `/items` the entry survives (the dispatcher only invalidates the literal
`'/employees'` pattern), and a subsequent GET is served from the cache. -/
theorem c1_fixed_pattern_counterexample :
    containsSub "/items".data (generateKey "GET" "/items").data = true ∧
    (handleRequest ⟨⟨[(generateKey "GET" "/items",
        { body := "old", headers := [], statusCode := 200, cachedAt := 0, expiresAt := 30000 })],
        30⟩, ⟨["a"], 0⟩, emptyMetrics⟩ "POST" "/items" 1 1
        (ForwardOutcome.response 201 [] "created")).1.cache.store =
      [(generateKey "GET" "/items",
        { body := "old", headers := [], statusCode := 200, cachedAt := 0, expiresAt := 30000 })] ∧
    ((handleRequest ⟨⟨[(generateKey "GET" "/items",
        { body := "old", headers := [], statusCode := 200, cachedAt := 0, expiresAt := 30000 })],
        30⟩, ⟨["a"], 0⟩, emptyMetrics⟩ "POST" "/items" 1 1
        (ForwardOutcome.response 201 [] "created")).1.cache.get 2 "GET" "/items").1 =
      some { body := "old", headers := [], statusCode := 200, cachedAt := 0, expiresAt := 30000 } :=
  ⟨rfl, rfl, rfl⟩

/-! ## C3 -/

/-- C3 (amended): `updateMetrics` increments the total by one, exactly one
of hits/misses, the handling server's count by one, and records the
response-time sample — but the dispatcher runs it only on the cache-hit path
(under the pseudo-server `"cache"`) and on forwarded requests whose backend
status is below 400; on a transport error or a backend status ≥ 400 the
metrics are left completely unchanged. -/
theorem c3_metrics_update (st : ProxyState) (method url : String) (now rt : Nat)
    (hopt : (method == "OPTIONS") = false)
    (hstat : (isStaticFilePath url && method == "GET") = false) :
    (∀ m server t hit,
      (updateMetrics m server t hit).totalRequests = m.totalRequests + 1 ∧
      (hit = true → (updateMetrics m server t hit).cacheHits = m.cacheHits + 1 ∧
        (updateMetrics m server t hit).cacheMisses = m.cacheMisses) ∧
      (hit = false → (updateMetrics m server t hit).cacheHits = m.cacheHits ∧
        (updateMetrics m server t hit).cacheMisses = m.cacheMisses + 1) ∧
      (updateMetrics m server t hit).requestsByServer server = m.requestsByServer server + 1 ∧
      t ∈ (updateMetrics m server t hit).responseTimes) ∧
    (∀ entry c₁, (method == "GET") = true → st.cache.get now method url = (some entry, c₁) →
      ∀ outcome, (handleRequest st method url now rt outcome).1.metrics =
        updateMetrics st.metrics "cache" rt true) ∧
    (((method == "GET") = true → (st.cache.get now method url).1 = none) →
      (∀ status headers body, status < 400 →
        (handleRequest st method url now rt
            (ForwardOutcome.response status headers body)).1.metrics =
          updateMetrics st.metrics (st.lb.getNextServer).1 rt false) ∧
      ((handleRequest st method url now rt ForwardOutcome.transportError).1.metrics =
        st.metrics) ∧
      (∀ status headers body, status ≥ 400 →
        (handleRequest st method url now rt
            (ForwardOutcome.response status headers body)).1.metrics = st.metrics)) := by
  refine ⟨?_, ?_, ?_⟩
  · intro m server t hit
    refine ⟨rfl, ?_, ?_, by simp [updateMetrics], ?_⟩
    · intro h
      simp [updateMetrics, h]
    · intro h
      simp [updateMetrics, h]
    · show t ∈ (updateMetrics m server t hit).responseTimes
      simp only [updateMetrics]
      split
      · rename_i hlen
        cases hm : m.responseTimes with
        | nil => simp [hm] at hlen
        | cons x xs => simp
      · simp
  · intro entry c₁ hg hget outcome
    rw [handleRequest_hit st method url now rt outcome entry c₁ hopt hstat hg hget]
  · intro hmiss
    refine ⟨?_, ?_, ?_⟩
    · intro status headers body hlt
      rw [handleRequest_forwarded st method url now rt _ hopt hstat hmiss]
      show (if status ≥ 400 then _ else _ : ProxyState × ClientResponse).1.metrics = _
      rw [if_neg (by omega)]
    · rw [handleRequest_forwarded st method url now rt _ hopt hstat hmiss]
      rfl
    · intro status headers body hge
      rw [handleRequest_forwarded st method url now rt _ hopt hstat hmiss]
      show (if status ≥ 400 then _ else _ : ProxyState × ClientResponse).1.metrics = _
      rw [if_pos hge]

/-- Witness for C3: on a concrete cache hit the metrics are updated under
`"cache"`, and on a concrete successful forward under the selected server. -/
theorem c3_metrics_update_witness :
    (handleRequest ⟨⟨[(generateKey "GET" "/employees",
        { body := "b", headers := [], statusCode := 200, cachedAt := 0, expiresAt := 30000 })],
        30⟩, ⟨["s"], 0⟩, emptyMetrics⟩ "GET" "/employees" 1 2
        ForwardOutcome.transportError).1.metrics =
      updateMetrics emptyMetrics "cache" 2 true ∧
    (handleRequest ⟨⟨[], 30⟩, ⟨["s"], 0⟩, emptyMetrics⟩ "GET" "/employees" 1 2
        (ForwardOutcome.response 200 [] "ok")).1.metrics =
      updateMetrics emptyMetrics ((⟨["s"], 0⟩ : LoadBalancer).getNextServer).1 2 false := by
  constructor
  · exact (c3_metrics_update ⟨⟨[(generateKey "GET" "/employees",
      { body := "b", headers := [], statusCode := 200, cachedAt := 0, expiresAt := 30000 })],
      30⟩, ⟨["s"], 0⟩, emptyMetrics⟩ "GET" "/employees" 1 2 (by decide) (by decide)).2.1
      { body := "b", headers := [], statusCode := 200, cachedAt := 0, expiresAt := 30000 }
      ⟨[(generateKey "GET" "/employees",
        { body := "b", headers := [], statusCode := 200, cachedAt := 0, expiresAt := 30000 })],
        30⟩
      (by decide) rfl ForwardOutcome.transportError
  · exact ((c3_metrics_update ⟨⟨[], 30⟩, ⟨["s"], 0⟩, emptyMetrics⟩ "GET" "/employees" 1 2
      (by decide) (by decide)).2.2 (fun _ => rfl)).1 200 [] "ok" (by decide)

/-- C3 counterexample: a request whose forwarding fails with a transport
error updates no metric at all — the total stays 0 and no response-time
sample is recorded — contradicting the claim that the metrics update runs
exactly once for every request, including transport failures. -/
theorem c3_no_metrics_on_transport_error_counterexample :
    (handleRequest ⟨⟨[], 30⟩, ⟨["s"], 0⟩, emptyMetrics⟩ "GET" "/employees" 0 5
        ForwardOutcome.transportError).1.metrics.totalRequests = 0 ∧
    (handleRequest ⟨⟨[], 30⟩, ⟨["s"], 0⟩, emptyMetrics⟩ "GET" "/employees" 0 5
        ForwardOutcome.transportError).1.metrics.responseTimes = [] :=
  ⟨rfl, rfl⟩

/-! ## C8 -/

/-- C8: on the forwarded path a response is stored in the cache exactly when
the method is GET and the backend status is exactly 200; in every other case
(write methods even on success, GET with any non-200 status, transport
errors) no store happens — the cache is exactly the probed cache, with only
the write-triggered `'/employees'` invalidation applied — and `Cache.set`
itself is the identity for non-cacheable methods. -/
theorem c8_store_iff_get_200 (st : ProxyState) (method url : String) (now rt : Nat)
    (status : Nat) (headers : List (String × String)) (body : String)
    (hopt : (method == "OPTIONS") = false)
    (hstat : (isStaticFilePath url && method == "GET") = false)
    (hmiss : (method == "GET") = true → (st.cache.get now method url).1 = none) :
    ((method == "GET" && status == 200) = true →
      (handleRequest st method url now rt (ForwardOutcome.response status headers body)).1.cache =
        (probedCache st method url now).set now method url body headers status) ∧
    ((method == "GET" && status == 200) = false →
      (handleRequest st method url now rt (ForwardOutcome.response status headers body)).1.cache =
        (if isWriteMethod method
         then (probedCache st method url now).invalidate "/employees"
         else probedCache st method url now)) ∧
    (∀ c n m u b hs s, Cache.shouldCache m = false → Cache.set c n m u b hs s = c) ∧
    ((handleRequest st method url now rt ForwardOutcome.transportError).1.cache =
      (if isWriteMethod method
       then (probedCache st method url now).invalidate "/employees"
       else probedCache st method url now)) := by
  refine ⟨?_, ?_, ?_, ?_⟩
  · intro h200
    obtain ⟨hg, hs⟩ := Bool.and_eq_true_iff.mp h200
    have hstatus : status = 200 := by simpa using hs
    have hmeth : method = "GET" := by simpa using hg
    rw [handleRequest_forwarded st method url now rt _ hopt hstat hmiss]
    show (if status ≥ 400 then _ else _ : ProxyState × ClientResponse).1.cache = _
    rw [if_neg (by omega)]
    show (if (method == "GET" && status == 200) = true then _ else _ : Cache) = _
    rw [if_pos h200]
    subst hmeth
    rfl
  · intro h200
    rw [handleRequest_forwarded st method url now rt _ hopt hstat hmiss]
    show (if status ≥ 400 then _ else _ : ProxyState × ClientResponse).1.cache = _
    split
    · rfl
    · show (if (method == "GET" && status == 200) = true then _ else _ : Cache) = _
      rw [if_neg (by simp [h200])]
  · intro c n m u b hs s hnc
    unfold Cache.set
    rw [if_pos (by simp [hnc])]
  · rw [handleRequest_forwarded st method url now rt _ hopt hstat hmiss]
    rfl

/-- Witness for C8: a concrete GET with status 200 is stored; a concrete
POST with status 201 is not (only the fixed invalidation runs). -/
theorem c8_store_iff_get_200_witness :
    (handleRequest ⟨⟨[], 30⟩, ⟨["s"], 0⟩, emptyMetrics⟩ "GET" "/employees" 0 1
        (ForwardOutcome.response 200 [] "ok")).1.cache =
      Cache.set (probedCache ⟨⟨[], 30⟩, ⟨["s"], 0⟩, emptyMetrics⟩ "GET" "/employees" 0) 0
        "GET" "/employees" "ok" [] 200 ∧
    (handleRequest ⟨⟨[], 30⟩, ⟨["s"], 0⟩, emptyMetrics⟩ "POST" "/employees" 0 1
        (ForwardOutcome.response 201 [] "created")).1.cache =
      (if isWriteMethod "POST"
       then (probedCache ⟨⟨[], 30⟩, ⟨["s"], 0⟩, emptyMetrics⟩ "POST" "/employees" 0).invalidate
         "/employees"
       else probedCache ⟨⟨[], 30⟩, ⟨["s"], 0⟩, emptyMetrics⟩ "POST" "/employees" 0) := by
  constructor
  · exact (c8_store_iff_get_200 ⟨⟨[], 30⟩, ⟨["s"], 0⟩, emptyMetrics⟩ "GET" "/employees"
      0 1 200 [] "ok" (by decide) (by decide) (fun _ => rfl)).1 (by decide)
  · exact (c8_store_iff_get_200 ⟨⟨[], 30⟩, ⟨["s"], 0⟩, emptyMetrics⟩ "POST" "/employees"
      0 1 201 [] "created" (by decide) (by decide) (fun h => absurd h (by decide))).2.1 (by decide)

/-! ## C10 support -/

theorem handleRequest_options (st : ProxyState) (method url : String) (now rt : Nat)
    (outcome : ForwardOutcome) (h : (method == "OPTIONS") = true) :
    handleRequest st method url now rt outcome = (st, { status := 200, body := "" }) := by
  unfold handleRequest
  rw [if_pos (by simp [h])]

theorem handleRequest_static (st : ProxyState) (method url : String) (now rt : Nat)
    (outcome : ForwardOutcome) (hopt : (method == "OPTIONS") = false)
    (h : (isStaticFilePath url && method == "GET") = true) :
    handleRequest st method url now rt outcome = (st, { status := 404, body := "" }) := by
  unfold handleRequest
  rw [if_neg (by simp [hopt]), if_pos (by simp [h])]

theorem sum_map_update_mem (servers : List String) (f : String → Nat) (x : String)
    (hnd : servers.Nodup) (hx : x ∈ servers) :
    (servers.map (fun s => if s = x then f s + 1 else f s)).sum = (servers.map f).sum + 1 := by
  induction servers with
  | nil => cases hx
  | cons a l ih =>
    by_cases hax : a = x
    · have hnot : x ∉ l := by
        rw [← hax]
        exact (List.nodup_cons.mp hnd).1
      have hmap : l.map (fun s => if s = x then f s + 1 else f s) = l.map f := by
        apply List.map_congr_left
        intro s hs
        rw [if_neg (show ¬s = x from fun hsx => hnot (by rw [← hsx]; exact hs))]
      simp only [List.map_cons, List.sum_cons, hmap, if_pos hax]
      omega
    · have hxl : x ∈ l := by
        rcases List.mem_cons.mp hx with h | h
        · exact absurd h.symm hax
        · exact h
      simp only [List.map_cons, List.sum_cons, if_neg hax,
        ih (List.nodup_cons.mp hnd).2 hxl]
      omega

theorem sum_map_update_not_mem (servers : List String) (f : String → Nat) (x : String)
    (hx : x ∉ servers) :
    (servers.map (fun s => if s = x then f s + 1 else f s)).sum = (servers.map f).sum := by
  congr 1
  apply List.map_congr_left
  intro s hs
  rw [if_neg (show ¬s = x from fun hsx => hx (by rw [← hsx]; exact hs))]

/-- Effect of one dispatched request on the sum of per-backend counts over
the configured pool: it grows by one exactly when the request is forwarded
and answered with a backend status below 400, and is unchanged otherwise
(cache hits are booked under the pseudo-server `"cache"`, which is not in
the pool). -/
theorem sumCounts_handleRequest (st : ProxyState) (e : ReqEvent) (servers : List String)
    (hnd : servers.Nodup) (hcache : "cache" ∉ servers)
    (hsrv : st.lb.servers = servers) (hcur : st.lb.currentIndex < servers.length) :
    sumCounts (handleRequest st e.method e.url e.now e.responseTime e.outcome).1.metrics servers =
      sumCounts st.metrics servers + (if isForwardedOk st e then 1 else 0) := by
  subst hsrv
  by_cases hopt : (e.method == "OPTIONS") = true
  · rw [handleRequest_options _ _ _ _ _ _ hopt]
    have hf : isForwardedOk st e = false := by
      simp [isForwardedOk, isForwarded, hopt]
    rw [hf]
    simp
  · have hopt' : (e.method == "OPTIONS") = false := by
      simpa using hopt
    by_cases hstat : (isStaticFilePath e.url && e.method == "GET") = true
    · rw [handleRequest_static _ _ _ _ _ _ hopt' hstat]
      have hf : isForwardedOk st e = false := by
        simp [isForwardedOk, isForwarded, hstat]
      rw [hf]
      simp
    · have hstat' : (isStaticFilePath e.url && e.method == "GET") = false := by
        simpa using hstat
      by_cases hhit : isCacheHit st e = true
      · have hg : (e.method == "GET") = true := by
          have := hhit
          simp only [isCacheHit, Bool.and_eq_true] at this
          exact this.1.1
        have hsome : (st.cache.get e.now e.method e.url).1.isSome = true := by
          have := hhit
          simp only [isCacheHit, Bool.and_eq_true] at this
          exact this.2
        obtain ⟨entry, hentry⟩ := Option.isSome_iff_exists.mp hsome
        have hget : st.cache.get e.now e.method e.url =
            (some entry, (st.cache.get e.now e.method e.url).2) := by
          rw [← hentry]
        rw [handleRequest_hit st e.method e.url e.now e.responseTime e.outcome entry
          (st.cache.get e.now e.method e.url).2 hopt' hstat' hg hget]
        have hf : isForwardedOk st e = false := by
          simp [isForwardedOk, isForwarded, hhit]
        rw [hf]
        show sumCounts (updateMetrics st.metrics "cache" e.responseTime true) st.lb.servers = _
        simp only [sumCounts, updateMetrics]
        rw [sum_map_update_not_mem st.lb.servers _ "cache" hcache]
        simp
      · have hhit' : isCacheHit st e = false := by
          simpa using hhit
        have hmiss : (e.method == "GET") = true →
            (st.cache.get e.now e.method e.url).1 = none := by
          intro hg
          have hst : isStaticFilePath e.url = false := by
            cases hs : isStaticFilePath e.url with
            | false => rfl
            | true => rw [hs, hg] at hstat'; cases hstat'
          have hh := hhit'
          simp only [isCacheHit, hg, hst, Bool.not_false, Bool.true_and, Bool.and_true,
            Bool.and_self] at hh
          exact Option.not_isSome_iff_eq_none.mp (by simp [hh])
        rw [handleRequest_forwarded st e.method e.url e.now e.responseTime e.outcome
          hopt' hstat' hmiss]
        have hfwd : isForwarded st e = true := by
          simp [isForwarded, hopt', hstat', hhit']
        cases ho : e.outcome with
        | transportError =>
          have hf : isForwardedOk st e = false := by
            simp [isForwardedOk, ho]
          rw [hf]
          simp [forwardedResult]
        | response status headers body =>
          by_cases h4 : status ≥ 400
          · have hf : isForwardedOk st e = false := by
              simp [isForwardedOk, ho, show ¬status < 400 by omega]
            rw [hf]
            simp [forwardedResult, h4]
          · have hf : isForwardedOk st e = true := by
              simp [isForwardedOk, ho, hfwd, show status < 400 by omega]
            rw [hf]
            have hmem : (st.lb.getNextServer).1 ∈ st.lb.servers := by
              show st.lb.servers.getD st.lb.currentIndex "" ∈ st.lb.servers
              rw [List.getD_eq_getElem _ _ hcur]
              exact List.getElem_mem hcur
            simp only [forwardedResult, if_neg h4]
            show sumCounts
              (updateMetrics st.metrics (st.lb.getNextServer).1 e.responseTime false)
                st.lb.servers = _
            simp only [sumCounts, updateMetrics]
            rw [sum_map_update_mem st.lb.servers _ _ hnd hmem]
            simp


theorem forwardedResult_lb (st : ProxyState) (method url : String) (now rt : Nat)
    (outcome : ForwardOutcome) (c : Cache) :
    (forwardedResult st method url now rt outcome c).1.lb = (st.lb.getNextServer).2 := by
  cases outcome with
  | transportError => rfl
  | response status headers body =>
    show (if status ≥ 400 then _ else _ : ProxyState × ClientResponse).1.lb = _
    split <;> rfl

/-- Each dispatched request either leaves the balancer untouched (preflight,
static bypass, cache hit) or advances it by exactly one selection. -/
theorem handleRequest_lb_cases (st : ProxyState) (method url : String) (now rt : Nat)
    (outcome : ForwardOutcome) :
    (handleRequest st method url now rt outcome).1.lb = st.lb ∨
    (handleRequest st method url now rt outcome).1.lb = (st.lb.getNextServer).2 := by
  by_cases hopt : (method == "OPTIONS") = true
  · left
    rw [handleRequest_options _ _ _ _ _ _ hopt]
  · have hopt' : (method == "OPTIONS") = false := by simpa using hopt
    by_cases hstat : (isStaticFilePath url && method == "GET") = true
    · left
      rw [handleRequest_static _ _ _ _ _ _ hopt' hstat]
    · have hstat' : (isStaticFilePath url && method == "GET") = false := by simpa using hstat
      by_cases hg : (method == "GET") = true
      · cases hprobe : (st.cache.get now method url).1 with
        | some entry =>
          left
          rw [handleRequest_hit st method url now rt outcome entry
            (st.cache.get now method url).2 hopt' hstat' hg (by rw [← hprobe])]
        | none =>
          right
          rw [handleRequest_forwarded st method url now rt outcome hopt' hstat'
            (fun _ => hprobe)]
          exact forwardedResult_lb st method url now rt outcome _
      · right
        rw [handleRequest_forwarded st method url now rt outcome hopt' hstat'
          (fun h => absurd h hg)]
        exact forwardedResult_lb st method url now rt outcome _

/-- Along a whole run, the sum of per-backend counts over the configured
pool grows exactly by the number of forwarded requests answered with a
backend status below 400. -/
theorem sumCounts_runRequests (events : List ReqEvent) (servers : List String) :
    ∀ st : ProxyState, servers.Nodup → "cache" ∉ servers →
      st.lb.servers = servers → st.lb.currentIndex < servers.length →
      sumCounts (runRequests st events).metrics servers =
        sumCounts st.metrics servers + countForwardedOk st events := by
  induction events with
  | nil =>
    intro st _ _ _ _
    simp [runRequests, countForwardedOk]
  | cons e es ih =>
    intro st hnd hcache hsrv hcur
    have hstep := sumCounts_handleRequest st e servers hnd hcache hsrv hcur
    have hsrv' : (handleRequest st e.method e.url e.now e.responseTime e.outcome).1.lb.servers =
        servers := by
      rcases handleRequest_lb_cases st e.method e.url e.now e.responseTime e.outcome with h | h
      · rw [h]; exact hsrv
      · rw [h]; exact hsrv
    have hcur' : (handleRequest st e.method e.url e.now e.responseTime
        e.outcome).1.lb.currentIndex < servers.length := by
      rcases handleRequest_lb_cases st e.method e.url e.now e.responseTime e.outcome with h | h
      · rw [h]; exact hcur
      · rw [h]
        show (st.lb.currentIndex + 1) % st.lb.servers.length < servers.length
        rw [hsrv]
        exact Nat.mod_lt _ (Nat.lt_of_le_of_lt (Nat.zero_le _) hcur)
    have key := ih (handleRequest st e.method e.url e.now e.responseTime e.outcome).1
      hnd hcache hsrv' hcur'
    show sumCounts (runRequests
        (handleRequest st e.method e.url e.now e.responseTime e.outcome).1 es).metrics servers = _
    rw [key, hstep,
      show countForwardedOk st (e :: es) = (if isForwardedOk st e then 1 else 0) +
        countForwardedOk (handleRequest st e.method e.url e.now e.responseTime e.outcome).1 es
      from rfl]
    omega

/-! ## C10 -/

/-- C10 (amended): a cache-served request books its per-backend count under
the literal pseudo-server name `"cache"` (no configured backend's count
changes); consequently, provided `"cache"` is not itself a configured
address, over any request sequence the sum of per-backend counts over the
configured pool equals the number of forwarded requests that came back with
a backend status below 400 — not the number of all forwarded requests,
because forwards that end in a transport error or a backend status ≥ 400
increment no count at all. -/
theorem c10_cache_pseudo_server (st : ProxyState) (events : List ReqEvent)
    (hnd : st.lb.servers.Nodup) (hcache : "cache" ∉ st.lb.servers)
    (hcur : st.lb.currentIndex < st.lb.servers.length) :
    (∀ method url now rt outcome entry c₁,
      (method == "OPTIONS") = false →
      (isStaticFilePath url && method == "GET") = false →
      (method == "GET") = true →
      st.cache.get now method url = (some entry, c₁) →
      (handleRequest st method url now rt outcome).1.metrics.requestsByServer "cache" =
        st.metrics.requestsByServer "cache" + 1 ∧
      (∀ s, s ≠ "cache" →
        (handleRequest st method url now rt outcome).1.metrics.requestsByServer s =
          st.metrics.requestsByServer s)) ∧
    sumCounts (runRequests st events).metrics st.lb.servers =
      sumCounts st.metrics st.lb.servers + countForwardedOk st events := by
  constructor
  · intro method url now rt outcome entry c₁ hopt hstat hg hget
    rw [handleRequest_hit st method url now rt outcome entry c₁ hopt hstat hg hget]
    constructor
    · simp [updateMetrics]
    · intro s hs
      simp [updateMetrics, hs]
  · exact sumCounts_runRequests events st.lb.servers st hnd hcache rfl hcur

/-- Witness for C10: a pool of two backends; a cache-hit GET books under
`"cache"`, and over a one-request run with a successful forward the pool-sum
matches the forwarded-ok count. -/
theorem c10_cache_pseudo_server_witness :
    ((handleRequest ⟨⟨[(generateKey "GET" "/employees",
        { body := "b", headers := [], statusCode := 200, cachedAt := 0, expiresAt := 30000 })],
        30⟩, ⟨["s1", "s2"], 0⟩, emptyMetrics⟩ "GET" "/employees" 1 2
        ForwardOutcome.transportError).1.metrics.requestsByServer "cache" =
      emptyMetrics.requestsByServer "cache" + 1) ∧
    sumCounts (runRequests ⟨⟨[], 30⟩, ⟨["s1", "s2"], 0⟩, emptyMetrics⟩
        [⟨"GET", "/employees", 0, 1, ForwardOutcome.response 200 [] "ok"⟩]).metrics
        ["s1", "s2"] =
      sumCounts emptyMetrics ["s1", "s2"] +
        countForwardedOk ⟨⟨[], 30⟩, ⟨["s1", "s2"], 0⟩, emptyMetrics⟩
          [⟨"GET", "/employees", 0, 1, ForwardOutcome.response 200 [] "ok"⟩] := by
  constructor
  · exact ((c10_cache_pseudo_server ⟨⟨[(generateKey "GET" "/employees",
      { body := "b", headers := [], statusCode := 200, cachedAt := 0, expiresAt := 30000 })],
      30⟩, ⟨["s1", "s2"], 0⟩, emptyMetrics⟩ [] (by decide) (by decide) (by decide)).1
      "GET" "/employees" 1 2 ForwardOutcome.transportError
      { body := "b", headers := [], statusCode := 200, cachedAt := 0, expiresAt := 30000 }
      ⟨[(generateKey "GET" "/employees",
        { body := "b", headers := [], statusCode := 200, cachedAt := 0, expiresAt := 30000 })],
        30⟩
      (by decide) (by decide) (by decide) rfl).1
  · exact (c10_cache_pseudo_server ⟨⟨[], 30⟩, ⟨["s1", "s2"], 0⟩, emptyMetrics⟩
      [⟨"GET", "/employees", 0, 1, ForwardOutcome.response 200 [] "ok"⟩]
      (by decide) (by decide) (by decide)).2

/-- C10 counterexample: the claim equates the pool-sum with the number of
forwarded (non-cache-hit) requests; one forwarded GET answered 404
increments no backend count, so the pool-sum is 0 while the forwarded count
is 1. -/
theorem c10_forwarded_error_counterexample :
    sumCounts (runRequests ⟨⟨[], 30⟩, ⟨["s1", "s2"], 0⟩, emptyMetrics⟩
        [⟨"GET", "/employees", 0, 1, ForwardOutcome.response 404 [] "nf"⟩]).metrics
        ["s1", "s2"] = 0 ∧
    countForwarded ⟨⟨[], 30⟩, ⟨["s1", "s2"], 0⟩, emptyMetrics⟩
        [⟨"GET", "/employees", 0, 1, ForwardOutcome.response 404 [] "nf"⟩] = 1 :=
  ⟨rfl, rfl⟩

/-! ## Splitting lemmas for the key canonicalization -/

theorem splitOnChar_ne_nil (c : Char) (l : List Char) : splitOnChar c l ≠ [] := by
  induction l with
  | nil => simp [splitOnChar]
  | cons x xs ih =>
    simp only [splitOnChar]
    cases h : splitOnChar c xs with
    | nil => exact absurd h ih
    | cons s ss =>
      by_cases hxc : x = c
      · simp [hxc]
      · simp [hxc]

theorem splitOnChar_cons_dest (c x : Char) (xs : List Char) (s : List Char) (ss : List (List Char))
    (h : splitOnChar c xs = s :: ss) :
    splitOnChar c (x :: xs) = if x = c then [] :: s :: ss else (x :: s) :: ss := by
  simp only [splitOnChar, h]

theorem splitOnChar_of_not_mem (c : Char) (l : List Char) (h : c ∉ l) :
    splitOnChar c l = [l] := by
  induction l with
  | nil => rfl
  | cons x xs ih =>
    have hx : ¬x = c := by
      intro he
      subst he
      exact h (List.mem_cons_self x xs)
    have hxs : c ∉ xs := fun hm => h (List.mem_cons_of_mem x hm)
    rw [splitOnChar_cons_dest c x xs xs [] (ih hxs), if_neg hx]

theorem splitOnChar_append_sep (c : Char) (xs ys : List Char) :
    splitOnChar c (xs ++ c :: ys) = splitOnChar c xs ++ splitOnChar c ys := by
  induction xs with
  | nil =>
    obtain ⟨s, ss, h⟩ := List.exists_cons_of_ne_nil (splitOnChar_ne_nil c ys)
    rw [List.nil_append, splitOnChar_cons_dest c c ys s ss h, if_pos rfl, ← h]
    rfl
  | cons x xs ih =>
    obtain ⟨s, ss, h⟩ := List.exists_cons_of_ne_nil (splitOnChar_ne_nil c (xs ++ c :: ys))
    obtain ⟨t, ts, ht⟩ := List.exists_cons_of_ne_nil (splitOnChar_ne_nil c xs)
    rw [List.cons_append, splitOnChar_cons_dest c x (xs ++ c :: ys) s ss h,
      splitOnChar_cons_dest c x xs t ts ht]
    have hse : s :: ss = t :: (ts ++ splitOnChar c ys) := by
      rw [← h, ih, ht, List.cons_append]
    have hs_eq : s = t := by injection hse
    have hss_eq : ss = ts ++ splitOnChar c ys := by injection hse
    by_cases hxc : x = c
    · rw [if_pos hxc, if_pos hxc, hs_eq, hss_eq]
      rfl
    · rw [if_neg hxc, if_neg hxc, hs_eq, hss_eq]
      rfl

theorem splitFirstEq_not_mem (c : Char) (seg : List Char) (h : c ∉ seg) :
    c ∉ (splitFirstEq seg).1 ∧ c ∉ (splitFirstEq seg).2 := by
  induction seg with
  | nil => simp [splitFirstEq]
  | cons x xs ih =>
    have hx : c ≠ x := by
      intro he
      subst he
      exact h (List.mem_cons_self c xs)
    have hxs : c ∉ xs := fun hm => h (List.mem_cons_of_mem x hm)
    show c ∉ (if x = '=' then (([] : List Char), xs)
        else ((x :: (splitFirstEq xs).1, (splitFirstEq xs).2) : QParam)).1 ∧
      c ∉ (if x = '=' then (([] : List Char), xs)
        else ((x :: (splitFirstEq xs).1, (splitFirstEq xs).2) : QParam)).2
    by_cases hxe : x = '='
    · rw [if_pos hxe]
      exact ⟨by simp, hxs⟩
    · rw [if_neg hxe]
      refine ⟨?_, (ih hxs).2⟩
      intro hmem
      rcases List.mem_cons.mp hmem with h1 | h1
      · exact hx h1
      · exact (ih hxs).1 h1

theorem exists_first_sep (c : Char) (l : List Char) (h : c ∈ l) :
    ∃ a b, l = a ++ c :: b ∧ c ∉ a := by
  induction l with
  | nil => cases h
  | cons x xs ih =>
    by_cases hxc : x = c
    · exact ⟨[], xs, by rw [hxc]; rfl, by simp⟩
    · have hxs : c ∈ xs := by
        rcases List.mem_cons.mp h with h1 | h1
        · exact absurd h1.symm hxc
        · exact h1
      obtain ⟨a, b, hab, hna⟩ := ih hxs
      refine ⟨x :: a, b, by rw [List.cons_append, hab], ?_⟩
      intro hmem
      rcases List.mem_cons.mp hmem with h1 | h1
      · exact hxc h1.symm
      · exact hna h1

theorem parseQuery_append_fmt (q : List Char) :
    parseQuery (q ++ '&' :: "format=json".data) =
      parseQuery q ++ [("format".data, "json".data)] := by
  unfold parseQuery
  rw [splitOnChar_append_sep '&' q "format=json".data,
    splitOnChar_of_not_mem '&' "format=json".data (by decide),
    List.filter_append, List.map_append]
  congr 1

theorem getFormat_append_json (ps : List QParam)
    (h : ∀ p ∈ ps, p.1 ≠ "format".data) :
    getFormat (ps ++ [("format".data, "json".data)]) = "json".data ∧
    getFormat ps = "json".data := by
  have hnone : ps.find? (fun p => p.1 == "format".data) = none :=
    List.find?_eq_none.mpr (fun x hx => by simpa using h x hx)
  constructor
  · unfold getFormat
    rw [List.find?_append, hnone]
    rfl
  · unfold getFormat
    rw [hnone]

theorem canonicalQuery_append_json (q : List Char)
    (h : ∀ p ∈ parseQuery q, p.1 ≠ "format".data) :
    canonicalQuery (parseQuery (q ++ '&' :: "format=json".data)) =
      canonicalQuery (parseQuery q) := by
  rw [parseQuery_append_fmt q]
  unfold canonicalQuery
  have hrm : removeFormat (parseQuery q ++ [("format".data, "json".data)]) =
      removeFormat (parseQuery q) := by
    unfold removeFormat
    rw [List.filter_append,
      show (List.filter (fun p => !(p.1 == "format".data))
        [((("format".data : List Char), ("json".data : List Char)) : QParam)]) = [] from rfl,
      List.append_nil]
  rw [hrm, (getFormat_append_json _ h).1, (getFormat_append_json _ h).2]

/-! ## C9 -/

/-- C9: a GET URL with no `format` query parameter derives the same cache
key as the same URL with `format=json` appended (with `&` when a query
marker is present, with `?` otherwise): the missing parameter defaults to
`format=json`, so populating the cache via either request produces a hit for
the other. -/
theorem c9_default_format (u : String)
    (hnofmt : ∀ p ∈ parseQuery (queryPartOf u.data), p.1 ≠ "format".data) :
    generateKey "GET" u = generateKey "GET" (appendFormatJson u) := by
  have hdata : (appendFormatJson u).data =
      if '?' ∈ u.data then u.data ++ "&format=json".data else u.data ++ "?format=json".data := by
    unfold appendFormatJson
    split
    · exact String.data_append u "&format=json"
    · exact String.data_append u "?format=json"
  show (⟨generateKeyChars "GET".data u.data⟩ : String) =
    ⟨generateKeyChars "GET".data (appendFormatJson u).data⟩
  congr 1
  rw [hdata]
  by_cases hq : '?' ∈ u.data
  · rw [if_pos hq]
    obtain ⟨a, b, hab, hna⟩ := exists_first_sep '?' u.data hq
    have happ : u.data ++ "&format=json".data = a ++ '?' :: (b ++ "&format=json".data) := by
      rw [hab, List.append_assoc]
      rfl
    by_cases hqb : '?' ∈ b
    · obtain ⟨b₁, b₂, hb, hnb₁⟩ := exists_first_sep '?' b hqb
      have hsplit₁ : splitOnChar '?' u.data = a :: b₁ :: splitOnChar '?' b₂ := by
        rw [hab, splitOnChar_append_sep, splitOnChar_of_not_mem '?' a hna, hb,
          splitOnChar_append_sep, splitOnChar_of_not_mem '?' b₁ hnb₁]
        rfl
      have hb' : b ++ "&format=json".data = b₁ ++ '?' :: (b₂ ++ "&format=json".data) := by
        rw [hb, List.append_assoc]
        rfl
      have hsplit₂ : splitOnChar '?' (u.data ++ "&format=json".data) =
          a :: b₁ :: splitOnChar '?' (b₂ ++ "&format=json".data) := by
        rw [happ, splitOnChar_append_sep, splitOnChar_of_not_mem '?' a hna, hb',
          splitOnChar_append_sep, splitOnChar_of_not_mem '?' b₁ hnb₁]
        rfl
      unfold generateKeyChars pathPartOf queryPartOf
      rw [hsplit₁, hsplit₂]
      rfl
    · have hsplit₁ : splitOnChar '?' u.data = [a, b] := by
        rw [hab, splitOnChar_append_sep, splitOnChar_of_not_mem '?' a hna,
          splitOnChar_of_not_mem '?' b hqb]
        rfl
      have hnq : '?' ∉ b ++ "&format=json".data := by
        intro hm
        rcases List.mem_append.mp hm with hmem | hmem
        · exact hqb hmem
        · revert hmem
          decide
      have hsplit₂ : splitOnChar '?' (u.data ++ "&format=json".data) =
          [a, b ++ "&format=json".data] := by
        rw [happ, splitOnChar_append_sep, splitOnChar_of_not_mem '?' a hna,
          splitOnChar_of_not_mem '?' _ hnq]
        rfl
      have hqu : queryPartOf u.data = b := by
        unfold queryPartOf
        rw [hsplit₁]
        rfl
      rw [hqu] at hnofmt
      unfold generateKeyChars pathPartOf queryPartOf
      rw [hsplit₁, hsplit₂]
      show upperChars "GET".data ++ ':' ::
          (dropTrailingSlash a ++ '?' :: canonicalQuery (parseQuery b)) =
        upperChars "GET".data ++ ':' ::
          (dropTrailingSlash a ++ '?' ::
            canonicalQuery (parseQuery (b ++ "&format=json".data)))
      rw [show b ++ "&format=json".data = b ++ '&' :: "format=json".data from rfl,
        canonicalQuery_append_json b hnofmt]
  · rw [if_neg hq]
    have hsplit₁ : splitOnChar '?' u.data = [u.data] := splitOnChar_of_not_mem '?' u.data hq
    have hsplit₂ : splitOnChar '?' (u.data ++ "?format=json".data) =
        [u.data, "format=json".data] := by
      rw [show u.data ++ "?format=json".data = u.data ++ '?' :: "format=json".data from rfl,
        splitOnChar_append_sep, hsplit₁, splitOnChar_of_not_mem '?' _ (by decide)]
      rfl
    unfold generateKeyChars pathPartOf queryPartOf
    rw [hsplit₁, hsplit₂]
    show upperChars "GET".data ++ ':' ::
        (dropTrailingSlash u.data ++ '?' :: canonicalQuery (parseQuery [])) =
      upperChars "GET".data ++ ':' ::
        (dropTrailingSlash u.data ++ '?' :: canonicalQuery (parseQuery "format=json".data))
    rw [show canonicalQuery (parseQuery ([] : List Char)) = "format=json".data from by decide,
      show canonicalQuery (parseQuery "format=json".data) = "format=json".data from by decide]

/-- Witness for C9 at two concrete URLs: with an existing query (appending
with `&`) and with no query at all (appending with `?`). -/
theorem c9_default_format_witness :
    generateKey "GET" "/employees?limit=5" =
      generateKey "GET" (appendFormatJson "/employees?limit=5") ∧
    generateKey "GET" "/employees" = generateKey "GET" (appendFormatJson "/employees") :=
  ⟨c9_default_format "/employees?limit=5" (by decide),
   c9_default_format "/employees" (by decide)⟩

end Proxy
